import Mathlib

/-!
Verification development for the multi-agent orchestration layer of the
Ai-Agent-Learning repository.

The Python sources under `src/orchestration` (router.py, coordinator.py) and
`src/memory` (context.py, storage.py) are shallowly embedded below:

* pure Python functions become Lean functions;
* a Python method that may raise becomes a function into `Except String _`
  (the `String` is the rendered exception message; its exact text is never
  load-bearing);
* Python `float` scores are modelled as `ℚ` (all score arithmetic in the
  source is on small decimal literals; no claim depends on binary rounding);
* ISO-8601 timestamp strings produced by a monotone clock are modelled as
  `ℕ` (lexicographic order on such strings agrees with the order of the
  instants they denote);
* Python `dict` becomes an insertion-ordered association list, Python `set`
  a deduplicated list (Python set iteration order is unspecified; no claim
  depends on it).
-/

namespace AiAgent

/-- Python `str.lower()` (the repository only feeds ASCII text through it),
written as a plain character-list map so the kernel can evaluate it. -/
def pyLower (s : String) : String := String.mk (s.toList.map Char.toLower)

/-- Does the first character list start with the second as a prefix. -/
def charsHavePre : List Char → List Char → Bool
  | _, [] => true
  | [], _ :: _ => false
  | b :: bs, a :: as => a = b && charsHavePre bs as

/-- Does the character list contain the given list as a contiguous run. -/
def charsContain (haystack needle : List Char) : Bool :=
  match haystack with
  | [] => needle.isEmpty
  | _ :: bs => charsHavePre haystack needle || charsContain bs needle

/-- Python `needle in haystack` on strings: substring containment. -/
def containsSubstr (needle haystack : String) : Bool :=
  charsContain haystack.toList needle.toList

/-- Accumulating worker for `pySplit`: `acc` holds the current word reversed. -/
def splitWsAux : List Char → List Char → List String
  | [], acc => if acc.isEmpty then [] else [String.mk acc.reverse]
  | c :: cs, acc =>
    if c.isWhitespace then
      (if acc.isEmpty then splitWsAux cs [] else String.mk acc.reverse :: splitWsAux cs [])
    else splitWsAux cs (c :: acc)

/-- Python `str.split()` with no argument: split on whitespace runs, dropping
empty fragments. -/
def pySplit (s : String) : List String := splitWsAux s.toList []

/-- Python `list(set(xs))`: deduplication.  Python's set iteration order is
unspecified; we keep first-occurrence order, and no claim depends on the
order. -/
def pySet (xs : List String) : List String :=
  xs.foldl (fun acc x => if x ∈ acc then acc else acc ++ [x]) []

/-- Python `d[k] = v` on an insertion-ordered dict modelled as an
association list: replace in place if the key exists, else append. -/
def dictSet {α : Type} (l : List (String × α)) (k : String) (v : α) :
    List (String × α) :=
  if l.any (fun p => p.1 = k) then
    l.map (fun p => if p.1 = k then (k, v) else p)
  else l ++ [(k, v)]

/-- Keys of a dict, in insertion order (Python `list(d.keys())`). -/
def dictKeys {α : Type} (l : List (String × α)) : List String := l.map (·.1)

/-- Python `str.title()`; it is only ever applied to single lowercase words
(agent names), for which it capitalises the first character. -/
def pyTitle (s : String) : String :=
  match s.toList with
  | [] => ""
  | c :: cs => String.mk (c.toUpper :: cs)

/-! ## agents/base.py — the structured result every agent returns

`AgentResponse` in src/agents/base.py carries content, agent_name,
tools_used, confidence, reasoning and a metadata dict.  Metadata values are
rendered to strings here (no claim inspects a metadata value's structure). -/

structure AgentResponse where
  content : String
  agent_name : String
  tools_used : List String
  confidence : ℚ
  reasoning : Option String
  metadata : List (String × String)
deriving Repr, DecidableEq

/-- An agent as the Router/Coordinator see it: `can_handle` (the scorer,
`none` models the scorer raising) and `process_message` (`Except.error`
models the handler raising).  The opaque `context` argument the source
threads through unmodified is absorbed into the behaviour functions. -/
structure Agent where
  canHandle : String → Option ℚ
  processMessage : String → Except String AgentResponse

/-! ## orchestration/router.py -/

structure RoutingDecision where
  agent_name : String
  confidence : ℚ
  reasoning : String
  alternative_agents : List (String × ℚ)
deriving Repr, DecidableEq

/-- The fixed agent registry built in `AgentRouter.__init__`
(`self.agents = {"research": ..., "code": ..., "creative": ..., "task": ...}`),
keyed in insertion order. -/
def registryNames : List String := ["research", "code", "creative", "task"]

/-- `self.agent_keywords` from `AgentRouter.__init__`. -/
def agentKeywords (name : String) : List String :=
  if name = "research" then
    ["search", "find", "research", "information", "facts", "data",
     "what is", "who is", "when", "where", "why", "how many",
     "statistics", "analysis", "study", "investigate", "compare"]
  else if name = "code" then
    ["code", "program", "script", "function", "debug", "fix",
     "python", "javascript", "java", "programming", "development",
     "algorithm", "implementation", "software", "app", "bug"]
  else if name = "creative" then
    ["create", "write", "story", "idea", "brainstorm", "creative",
     "content", "blog", "article", "poem", "design", "imagine",
     "innovative", "original", "artistic", "inspiration"]
  else if name = "task" then
    ["plan", "organize", "schedule", "manage", "project", "task",
     "timeline", "deadline", "coordinate", "prioritize", "workflow",
     "goal", "objective", "strategy", "breakdown", "milestone"]
  else []

/-- `self.fallback_order` from `AgentRouter.__init__`. -/
def fallbackOrder : List String := ["research", "creative", "task", "code"]

/-- `AgentRouter._calculate_keyword_scores`, for one agent: 0.1 per keyword
occurring as a substring of the lowercased message, then `min(score, 1.0)`. -/
def calculateKeywordScores (message : String) (name : String) : ℚ :=
  min ((agentKeywords name).foldl
    (fun s keyword => if containsSubstr keyword (pyLower message) then s + 1/10 else s) 0) 1

/-- `AgentRouter._get_fallback_agent`. -/
def getFallbackAgent (message : String) : String :=
  if ["what", "how", "why", "explain"].any
      (fun w => containsSubstr w (pyLower message)) then
    "research"
  else if ["create", "write", "generate"].any
      (fun w => containsSubstr w (pyLower message)) then
    "creative"
  else if ["plan", "organize", "schedule"].any
      (fun w => containsSubstr w (pyLower message)) then
    "task"
  else
    fallbackOrder.getD 0 ""    -- self.fallback_order[0]  (= "research")

/-- One insertion step of a stable descending sort on the second component;
Python's `sorted(..., key=lambda x: x[1], reverse=True)` is a stable
descending sort, which this insertion sort reproduces (an element moves past
another only when its score is strictly greater). -/
def insertDesc (x : String × ℚ) : List (String × ℚ) → List (String × ℚ)
  | [] => [x]
  | y :: ys => if x.2 > y.2 then x :: y :: ys else y :: insertDesc x ys

/-- Stable descending sort by score, modelling
`sorted(combined_scores.items(), key=lambda x: x[1], reverse=True)`. -/
def sortDesc (l : List (String × ℚ)) : List (String × ℚ) :=
  l.foldr insertDesc []

/-- The combined score `(agent_score * 0.7) + (keyword_score * 0.3)` computed
in `route_message` for one agent; a scorer that raised contributes
`agent_scores[agent_name] = 0.0`. -/
def combinedScore (canHandle : String → Option ℚ) (message : String)
    (name : String) : ℚ :=
  (canHandle name).getD 0 * (7/10) + calculateKeywordScores message name * (3/10)

/-- The scoring path of `AgentRouter.route_message` (everything after the
`preferred_agent` early return). -/
def routeByScoring (canHandle : String → Option ℚ) (message : String) :
    RoutingDecision :=
  let combined_scores := registryNames.map
    (fun name => (name, combinedScore canHandle message name))
  let sorted_agents := sortDesc combined_scores
  let alternatives :=
    ((sorted_agents.drop 1).take 2).filter (fun p => p.2 > 1/10)
  match sorted_agents with
  | [] =>
    { agent_name := getFallbackAgent message
      confidence := 1/2
      reasoning := "No agent showed strong confidence, using fallback: " ++
        getFallbackAgent message
      alternative_agents := alternatives }
  | top :: _ =>
    if top.2 < 1/10 then
      { agent_name := getFallbackAgent message
        confidence := 1/2
        reasoning := "No agent showed strong confidence, using fallback: " ++
          getFallbackAgent message
        alternative_agents := alternatives }
    else
      { agent_name := top.1
        confidence := top.2
        reasoning := "Selected based on highest confidence score"
        alternative_agents := alternatives }

/-- `AgentRouter.route_message`.  `canHandle name` is agent `name`'s
`can_handle`; `none` models that scorer raising (the source catches the
exception and records score 0.0).  `preferred = some p` models a non-None
`preferred_agent` argument; the source guard `if preferred_agent and ...`
also requires the string to be truthy, i.e. non-empty. -/
def routeMessage (canHandle : String → Option ℚ) (message : String)
    (preferred : Option String) : RoutingDecision :=
  match preferred with
  | some p =>
    if p ≠ "" ∧ p ∈ registryNames then
      { agent_name := p
        confidence := 1
        reasoning := "User explicitly requested " ++ p ++ " agent"
        alternative_agents := [] }
    else
      routeByScoring canHandle message
  | none => routeByScoring canHandle message

/-! ## Router lemmas -/

/-- `insertDesc` produces a permutation of consing. -/
theorem insertDesc_perm (x : String × ℚ) (l : List (String × ℚ)) :
    List.Perm (insertDesc x l) (x :: l) := by
  induction l with
  | nil => simp [insertDesc]
  | cons y ys ih =>
    simp only [insertDesc]
    split
    · exact List.Perm.refl _
    · exact (ih.cons y).trans (List.Perm.swap x y ys)

/-- `sortDesc` permutes its input. -/
theorem sortDesc_perm (l : List (String × ℚ)) : List.Perm (sortDesc l) l := by
  induction l with
  | nil => exact List.Perm.refl _
  | cons a l ih => exact (insertDesc_perm a (sortDesc l)).trans (ih.cons a)

/-- Inserting into a descending-sorted list keeps it descending-sorted. -/
theorem insertDesc_pairwise (x : String × ℚ) (l : List (String × ℚ))
    (h : l.Pairwise (fun a b => b.2 ≤ a.2)) :
    (insertDesc x l).Pairwise (fun a b => b.2 ≤ a.2) := by
  induction l with
  | nil => simp [insertDesc]
  | cons y ys ih =>
    rw [List.pairwise_cons] at h
    obtain ⟨hy, hys⟩ := h
    simp only [insertDesc]
    split
    · rename_i hgt
      refine List.pairwise_cons.mpr ⟨?_, List.pairwise_cons.mpr ⟨hy, hys⟩⟩
      intro b hb
      rcases List.mem_cons.mp hb with rfl | hb'
      · exact le_of_lt hgt
      · exact (hy b hb').trans (le_of_lt hgt)
    · rename_i hle
      refine List.pairwise_cons.mpr ⟨?_, ih hys⟩
      intro b hb
      rcases List.mem_cons.mp ((insertDesc_perm x ys).mem_iff.mp hb) with rfl | hb'
      · exact le_of_not_lt hle
      · exact hy b hb'

/-- `sortDesc` output is descending-sorted. -/
theorem sortDesc_pairwise (l : List (String × ℚ)) :
    (sortDesc l).Pairwise (fun a b => b.2 ≤ a.2) := by
  induction l with
  | nil => simp [sortDesc]
  | cons a l ih => exact insertDesc_pairwise a (sortDesc l) ih

/-- If `sortDesc` yields `[]` the input was `[]`. -/
theorem sortDesc_eq_nil {l : List (String × ℚ)} (h : sortDesc l = []) : l = [] :=
  List.Perm.nil_eq (h ▸ sortDesc_perm l) |>.symm

/-- The head of `sortDesc` is an element of the input list. -/
theorem sortDesc_head_mem {l : List (String × ℚ)} {top : String × ℚ}
    {rest : List (String × ℚ)} (h : sortDesc l = top :: rest) : top ∈ l :=
  (sortDesc_perm l).mem_iff.mp (h ▸ List.mem_cons_self top rest)

/-- The head of `sortDesc` dominates every score in the input list. -/
theorem sortDesc_head_max {l : List (String × ℚ)} {top : String × ℚ}
    {rest : List (String × ℚ)} (h : sortDesc l = top :: rest) :
    ∀ y ∈ l, y.2 ≤ top.2 := by
  intro y hy
  have hmem : y ∈ top :: rest := h ▸ (sortDesc_perm l).mem_iff.mpr hy
  rcases List.mem_cons.mp hmem with rfl | hrest
  · exact le_refl _
  · have hp := sortDesc_pairwise l
    rw [h, List.pairwise_cons] at hp
    exact hp.1 y hrest

/-- The keyword-score fold never decreases the accumulator. -/
theorem kwFoldl_mono (m : String) (ks : List String) (s : ℚ) :
    s ≤ ks.foldl (fun s k => if containsSubstr k m then s + 1/10 else s) s := by
  induction ks generalizing s with
  | nil => exact le_refl s
  | cons k ks ih =>
    simp only [List.foldl_cons]
    have h1 : s ≤ (if containsSubstr k m then s + 1/10 else s) := by
      split <;> linarith
    exact le_trans h1 (ih _)

/-- The keyword-score fold adds exactly 0.1 per matched keyword. -/
theorem kwFoldl_eq_count (m : String) (ks : List String) (s : ℚ) :
    ks.foldl (fun s k => if containsSubstr k m then s + 1/10 else s) s =
      s + (ks.countP fun k => containsSubstr k m) / 10 := by
  induction ks generalizing s with
  | nil => simp
  | cons k ks ih =>
    rw [List.foldl_cons, ih, List.countP_cons]
    by_cases hk : containsSubstr k m
    · simp only [hk, if_pos]
      push_cast
      ring
    · simp [hk]

/-- Keyword scores are in [0, 1]. -/
theorem calculateKeywordScores_bounds (m n : String) :
    0 ≤ calculateKeywordScores m n ∧ calculateKeywordScores m n ≤ 1 := by
  unfold calculateKeywordScores
  exact ⟨le_min (kwFoldl_mono _ _ 0) (by norm_num), min_le_right _ _⟩

/-- The combined score lies in [0, 1] whenever the agent scorer, if it does not
raise, reports a value in [0, 1]. -/
theorem combinedScore_bounds (canHandle : String → Option ℚ) (m n : String)
    (h : ∀ s, canHandle n = some s → 0 ≤ s ∧ s ≤ 1) :
    0 ≤ combinedScore canHandle m n ∧ combinedScore canHandle m n ≤ 1 := by
  unfold combinedScore
  have ha : 0 ≤ (canHandle n).getD 0 ∧ (canHandle n).getD 0 ≤ 1 := by
    cases hc : canHandle n with
    | none => simp
    | some s => simpa using h s hc
  have hk := calculateKeywordScores_bounds m n
  constructor <;> nlinarith [ha.1, ha.2, hk.1, hk.2]

/-- The linguistic-cue fallback agent is always a registered agent. -/
theorem getFallbackAgent_mem (m : String) : getFallbackAgent m ∈ registryNames := by
  simp only [getFallbackAgent, registryNames, fallbackOrder]
  split
  · simp
  · split
    · simp
    · split
      · simp
      · simp [List.getD]

/-- When the head of the sorted score list is below the 0.1 floor,
`routeByScoring` returns the fallback decision. -/
theorem routeByScoring_fallback (canHandle : String → Option ℚ) (message : String)
    {top : String × ℚ} {rest : List (String × ℚ)}
    (hs : sortDesc (registryNames.map fun name =>
      (name, combinedScore canHandle message name)) = top :: rest)
    (hlt : top.2 < 1/10) :
    (routeByScoring canHandle message).agent_name = getFallbackAgent message ∧
    (routeByScoring canHandle message).confidence = 1/2 ∧
    (routeByScoring canHandle message).reasoning =
      "No agent showed strong confidence, using fallback: " ++
        getFallbackAgent message := by
  unfold routeByScoring
  simp only [hs]
  rw [if_pos hlt]
  exact ⟨rfl, rfl, rfl⟩

/-- When the head of the sorted score list reaches the 0.1 floor,
`routeByScoring` returns that head. -/
theorem routeByScoring_top (canHandle : String → Option ℚ) (message : String)
    {top : String × ℚ} {rest : List (String × ℚ)}
    (hs : sortDesc (registryNames.map fun name =>
      (name, combinedScore canHandle message name)) = top :: rest)
    (hnotlt : ¬ top.2 < 1/10) :
    (routeByScoring canHandle message).agent_name = top.1 ∧
    (routeByScoring canHandle message).confidence = top.2 := by
  unfold routeByScoring
  simp only [hs]
  rw [if_neg hnotlt]
  exact ⟨rfl, rfl⟩

/-- The sorted combined-score list is never empty (the registry has four
agents), so it has a head, which lies in the score list. -/
theorem sortDesc_registry_cons (canHandle : String → Option ℚ) (message : String) :
    ∃ top rest, sortDesc (registryNames.map fun name =>
      (name, combinedScore canHandle message name)) = top :: rest ∧
      ∃ n ∈ registryNames, top = (n, combinedScore canHandle message n) := by
  cases hs : sortDesc (registryNames.map fun name =>
      (name, combinedScore canHandle message name)) with
  | nil =>
    exfalso
    have := sortDesc_eq_nil hs
    simp [registryNames] at this
  | cons top rest =>
    obtain ⟨n, hn, hpair⟩ := List.mem_map.mp (sortDesc_head_mem hs)
    exact ⟨top, rest, rfl, n, hn, hpair.symm⟩

/-- C7: for every message, context and preferred-agent argument, `route_message`
returns a `RoutingDecision` whose confidence lies in [0,1] and whose agent name
is in the registry; it never throws (it is a total function in this model, with
a raising scorer recorded as `canHandle _ = none` and treated as score 0.0),
assuming each non-raising scorer returns a value in [0,1]. -/
theorem router_route_returns_valid_decision (canHandle : String → Option ℚ)
    (message : String) (preferred : Option String)
    (hbound : ∀ n ∈ registryNames, ∀ s, canHandle n = some s → 0 ≤ s ∧ s ≤ 1) :
    0 ≤ (routeMessage canHandle message preferred).confidence ∧
    (routeMessage canHandle message preferred).confidence ≤ 1 ∧
    (routeMessage canHandle message preferred).agent_name ∈ registryNames := by
  have hscoring :
      0 ≤ (routeByScoring canHandle message).confidence ∧
      (routeByScoring canHandle message).confidence ≤ 1 ∧
      (routeByScoring canHandle message).agent_name ∈ registryNames := by
    obtain ⟨top, rest, hs, n, hn, htop⟩ := sortDesc_registry_cons canHandle message
    have hb := combinedScore_bounds canHandle message n (hbound n hn)
    by_cases hlt : top.2 < 1/10
    · obtain ⟨h1, h2, _⟩ := routeByScoring_fallback canHandle message hs hlt
      rw [h1, h2]
      exact ⟨by norm_num, by norm_num, getFallbackAgent_mem message⟩
    · obtain ⟨h1, h2⟩ := routeByScoring_top canHandle message hs hlt
      rw [h1, h2, htop]
      exact ⟨hb.1, hb.2, hn⟩
  match preferred with
  | none => exact hscoring
  | some p =>
    by_cases hp : p ≠ "" ∧ p ∈ registryNames
    · simp only [routeMessage, if_pos hp]
      exact ⟨by norm_num, by norm_num, hp.2⟩
    · simp only [routeMessage, if_neg hp]
      exact hscoring

/-- Witness for C7 at a concrete scorer and message. -/
theorem router_route_returns_valid_decision_witness :
    0 ≤ (routeMessage (fun _ => some (1/2)) "find a bug in my python code" none).confidence ∧
    (routeMessage (fun _ => some (1/2)) "find a bug in my python code" none).confidence ≤ 1 ∧
    (routeMessage (fun _ => some (1/2)) "find a bug in my python code" none).agent_name ∈
      registryNames :=
  router_route_returns_valid_decision (fun _ => some (1/2))
    "find a bug in my python code" none
    (by
      intro n _ s hs
      have h : (1/2 : ℚ) = s := Option.some.inj hs
      constructor <;> rw [← h] <;> norm_num)

/-- C8: with no registered preferred agent, the Router scores each agent as
`combined = 0.7*agent_score + 0.3*keyword_score`, the keyword score being 0.1
per matched keyword capped at 1.0; it selects an agent attaining the maximum
combined score, unless every combined score is below 0.1, in which case it
returns the deterministic linguistic-cue fallback agent with confidence
exactly 0.5 and reasoning noting that the fallback was used. -/
theorem router_score_combination_and_selection (canHandle : String → Option ℚ)
    (message : String) :
    (∀ n, calculateKeywordScores message n =
      min ((((agentKeywords n).countP
        fun k => containsSubstr k (pyLower message)) : ℚ) / 10) 1) ∧
    (∀ n, combinedScore canHandle message n =
      (7/10) * (canHandle n).getD 0 + (3/10) * calculateKeywordScores message n) ∧
    ((∀ n ∈ registryNames, combinedScore canHandle message n < 1/10) →
      (routeMessage canHandle message none).agent_name = getFallbackAgent message ∧
      (routeMessage canHandle message none).confidence = 1/2 ∧
      containsSubstr "fallback" (routeMessage canHandle message none).reasoning = true) ∧
    (∀ n₀ ∈ registryNames, 1/10 ≤ combinedScore canHandle message n₀ →
      (routeMessage canHandle message none).agent_name ∈ registryNames ∧
      (routeMessage canHandle message none).confidence =
        combinedScore canHandle message (routeMessage canHandle message none).agent_name ∧
      ∀ n ∈ registryNames, combinedScore canHandle message n ≤
        (routeMessage canHandle message none).confidence) := by
  have hroute : routeMessage canHandle message none = routeByScoring canHandle message := rfl
  obtain ⟨top, rest, hs, n, hn, htop⟩ := sortDesc_registry_cons canHandle message
  have hmax : ∀ m ∈ registryNames, combinedScore canHandle message m ≤ top.2 := by
    intro m hm
    exact sortDesc_head_max hs (m, combinedScore canHandle message m)
      (List.mem_map.mpr ⟨m, hm, rfl⟩)
  refine ⟨?_, ?_, ?_, ?_⟩
  · intro m
    unfold calculateKeywordScores
    rw [kwFoldl_eq_count]
    norm_num
  · intro m
    unfold combinedScore
    ring
  · intro hall
    have hlt : top.2 < 1/10 := by
      rw [htop]
      exact hall n hn
    obtain ⟨h1, h2, h3⟩ := routeByScoring_fallback canHandle message hs hlt
    rw [hroute, h1, h2, h3]
    refine ⟨rfl, rfl, ?_⟩
    have hmem := getFallbackAgent_mem message
    simp only [registryNames, List.mem_cons, List.not_mem_nil, or_false] at hmem
    rcases hmem with h | h | h | h <;> rw [h] <;> decide
  · intro n₀ hn₀ hge
    have hnotlt : ¬ top.2 < 1/10 := not_lt.mpr (le_trans hge (hmax n₀ hn₀))
    obtain ⟨h1, h2⟩ := routeByScoring_top canHandle message hs hnotlt
    rw [hroute, h1, h2]
    have htopname : top.1 = n := by rw [htop]
    have htopval : top.2 = combinedScore canHandle message n := by rw [htop]
    exact ⟨htopname ▸ hn, by rw [htopname, htopval], hmax⟩

/-- Witness for C8: with all scorers raising and message "code code", every
combined score is below 0.1, so the Router falls back (to "research", the
message containing none of the linguistic cues) with confidence 0.5. -/
theorem router_score_combination_and_selection_witness :
    (routeMessage (fun _ => none) "code code" none).agent_name =
      getFallbackAgent "code code" ∧
    (routeMessage (fun _ => none) "code code" none).confidence = 1/2 ∧
    containsSubstr "fallback" (routeMessage (fun _ => none) "code code" none).reasoning
      = true :=
  (router_score_combination_and_selection (fun _ => none) "code code").2.2.1
    (by
      intro m hm
      have hc : ∀ name, combinedScore (fun _ : String => none) "code code" name =
          calculateKeywordScores "code code" name * (3/10) := by
        intro name
        unfold combinedScore
        simp
      have hkw : ∀ name, calculateKeywordScores "code code" name =
          min ((((agentKeywords name).countP
            fun k => containsSubstr k (pyLower "code code")) : ℚ) / 10) 1 := by
        intro name
        unfold calculateKeywordScores
        rw [kwFoldl_eq_count]
        norm_num
      simp only [registryNames, List.mem_cons, List.not_mem_nil, or_false] at hm
      rcases hm with rfl | rfl | rfl | rfl
      · rw [hc, hkw, (by decide : ((agentKeywords "research").countP
          fun k => containsSubstr k (pyLower "code code")) = 0)]
        norm_num [min_def]
      · rw [hc, hkw, (by decide : ((agentKeywords "code").countP
          fun k => containsSubstr k (pyLower "code code")) = 1)]
        norm_num [min_def]
      · rw [hc, hkw, (by decide : ((agentKeywords "creative").countP
          fun k => containsSubstr k (pyLower "code code")) = 0)]
        norm_num [min_def]
      · rw [hc, hkw, (by decide : ((agentKeywords "task").countP
          fun k => containsSubstr k (pyLower "code code")) = 0)]
        norm_num [min_def])

/-! ## orchestration/coordinator.py -/

/-- `collaboration_indicators` in `_check_collaboration_need`. -/
def collaborationIndicators : List String :=
  ["research and write", "analyze and create", "plan and implement",
   "compare and design", "investigate and report", "study and develop"]

/-- `domains` in `_check_collaboration_need`. -/
def collaborationDomains : List String :=
  ["research", "code", "creative", "task", "plan", "write", "analyze", "implement"]

/-- `AgentCoordinator._check_collaboration_need`: explicit indicator phrase, or
at least two domain keywords, or more than 50 words. -/
def checkCollaborationNeed (message : String) : Bool :=
  if collaborationIndicators.any (fun ind => containsSubstr ind (pyLower message)) then
    true
  else if 2 ≤ collaborationDomains.countP (fun d => containsSubstr d (pyLower message)) then
    true
  else if 50 < (pySplit message).length then
    true
  else
    false

/-- `capability_keywords` in `_identify_secondary_agents`, in insertion order. -/
def capabilityKeywords : List (String × List String) :=
  [("research", ["research", "find", "information", "data", "facts", "search"]),
   ("code", ["code", "program", "implement", "development", "software"]),
   ("creative", ["create", "write", "design", "creative", "content", "idea"]),
   ("task", ["plan", "organize", "manage", "schedule", "coordinate"])]

/-- `AgentCoordinator._identify_secondary_agents`: every capability group other
than the primary with a keyword in the message, in table order, limited to 2. -/
def identifySecondaryAgents (message : String) (primary_agent : String) :
    List String :=
  (capabilityKeywords.foldl (fun acc p =>
    if p.1 ≠ primary_agent ∧ p.2.any (fun k => containsSubstr k (pyLower message)) then
      acc ++ [p.1]
    else acc) []).take 2

structure CollaborationStep where
  agent : String
  task : String
  order : ℕ
deriving Repr, DecidableEq

structure CollaborationPlan where
  primary_agent : String
  secondary_agents : List String
  steps : List CollaborationStep
  collaboration_type : String
deriving Repr, DecidableEq

/-- The per-agent-type preparatory task text in `_create_collaboration_plan`;
`none` models the if/elif chain appending no step for an unknown agent type. -/
def secondaryStepTask (agent message : String) : Option String :=
  if agent = "research" then
    some ("Research background information related to: " ++ message)
  else if agent = "task" then
    some ("Create an implementation plan for: " ++ message)
  else if agent = "code" then
    some ("Analyze technical requirements for: " ++ message)
  else if agent = "creative" then
    some ("Generate creative concepts for: " ++ message)
  else none

/-- `AgentCoordinator._create_collaboration_plan`: one preparatory step per
secondary agent (order = its enumerate index + 1), then the synthesis step for
the primary agent (order = number of steps so far + 1). -/
def createCollaborationPlan (message primary_agent : String)
    (secondary_agents : List String) : CollaborationPlan :=
  let prep := secondary_agents.enum.foldl (fun acc p =>
    match secondaryStepTask p.2 message with
    | some t => acc ++ [⟨p.2, t, p.1 + 1⟩]
    | none => acc) []
  { primary_agent := primary_agent
    secondary_agents := secondary_agents
    steps := prep ++ [⟨primary_agent,
      "Synthesize information and provide comprehensive response to: " ++ message,
      prep.length + 1⟩]
    collaboration_type := "sequential" }

/-- `self.router.get_agent(name)`: the router's dict holds exactly the four
registry agents, so `.get` returns `None` for any other name.  `A` gives each
registered agent's behaviour. -/
def getAgent (A : String → Agent) (name : String) : Option Agent :=
  if name ∈ registryNames then some (A name) else none

/-- One iteration of the step-execution loop in `_handle_collaboration`:
skip the step when agent name/task are falsy or the agent is not registered;
otherwise invoke the agent (an exception propagates) and record the result. -/
def stepAction (A : String → Agent)
    (collaboration_results : List (String × AgentResponse))
    (step : CollaborationStep) : Except String (List (String × AgentResponse)) :=
  if step.agent ≠ "" ∧ step.task ≠ "" then
    match getAgent A step.agent with
    | some agent => do
        let step_result ← agent.processMessage step.task
        pure (dictSet collaboration_results step.agent step_result)
    | none => pure collaboration_results
  else pure collaboration_results

/-- The step-execution loop of `_handle_collaboration` over the whole plan
(note the source iterates over *all* steps, the final synthesis step
included).  There is no per-step exception handler: the first raising step
aborts the loop. -/
def executeSteps (A : String → Agent) (steps : List CollaborationStep) :
    Except String (List (String × AgentResponse)) :=
  steps.foldlM (stepAction A) []

/-- Rendering of one collected result inside
`json.dumps(synthesis_context["collaboration_results"], indent=2)`. -/
def jsonOfResult (p : String × AgentResponse) : String :=
  "\x22" ++ p.1 ++ "\x22: \x7b\x22content\x22: \x22" ++ p.2.content ++
  "\x22, \x22tools_used\x22: [" ++
  String.intercalate ", " (p.2.tools_used.map (fun t => "\x22" ++ t ++ "\x22")) ++
  "], \x22confidence\x22: " ++ toString p.2.confidence ++ "\x7d"

/-- Structural rendering of the JSON dump of the collected results embedded in
the synthesis prompt (Python's exact whitespace/float formatting is
abstracted; no claim depends on the prompt text). -/
def jsonDumpsResults (results : List (String × AgentResponse)) : String :=
  "\x7b" ++ String.intercalate ", " (results.map jsonOfResult) ++ "\x7d"

/-- The synthesis prompt f-string built in
`_synthesize_collaboration_results`. -/
def synthesisPrompt (original_message : String)
    (results : List (String × AgentResponse)) : String :=
  "\n        Original request: \x22" ++ original_message ++ "\x22\n        \n" ++
  "        I\x27ve gathered information from multiple specialized agents:\n        \n        " ++
  jsonDumpsResults results ++
  "\n        \n        Please provide a comprehensive, well-integrated response that synthesizes all this information\n" ++
  "        to fully address the original request. Ensure the response is coherent, complete, and\n" ++
  "        acknowledges the contributions from different perspectives.\n        "

/-- `AgentCoordinator._synthesize_collaboration_results`.

Happy path: the primary agent answers the synthesis prompt; `tools_used` is
overwritten with the deduplicated union of all step results' tools and the
collaboration metadata is annotated.

Fallback path (`except`): the source builds `combined_content` and then
returns an `AgentResponse` whose `tools_used` evaluates
`list(set(all_tools_used))` — but `all_tools_used` is a local assigned only
inside the `try`, *after* the call that raised, so at that point it is
unassigned and the reference raises `UnboundLocalError`.  The possibly
unassigned local is modelled by an `Option` that is `none` on the fallback
path (`none` = not yet assigned). -/
def synthesizeCollaborationResults (original_message : String)
    (collaboration_results : List (String × AgentResponse))
    (primary_agent : Option Agent) : Except String AgentResponse :=
  let tryCall : Except String AgentResponse :=
    match primary_agent with
    | some p => p.processMessage (synthesisPrompt original_message collaboration_results)
    | none => Except.error
        "AttributeError: NoneType object has no attribute process_message"
  match tryCall with
  | Except.ok synthesis_response =>
    let all_tools_used : Option (List String) :=
      some (collaboration_results.foldl (fun acc p => acc ++ p.2.tools_used) [])
    match all_tools_used with
    | some tools =>
      Except.ok { synthesis_response with
        tools_used := pySet tools,
        metadata := dictSet (dictSet synthesis_response.metadata
            "collaboration_synthesis" "True")
          "agents_involved"
          (String.intercalate ", " (dictKeys collaboration_results)) }
    | none => Except.error
        "UnboundLocalError: local variable all_tools_used referenced before assignment"
  | Except.error _ =>
    let combined_content := collaboration_results.foldl
      (fun acc p =>
        acc ++ "**" ++ pyTitle p.1 ++ " Agent Insights:**\n" ++ p.2.content ++ "\n\n")
      "Based on analysis from multiple agents:\n\n"
    let all_tools_used : Option (List String) := none
    match all_tools_used with
    | some tools =>
      Except.ok
        { content := combined_content,
          agent_name := "coordinator",
          tools_used := pySet tools,
          confidence := 7/10,
          reasoning := some "Multi-agent collaboration with manual synthesis",
          metadata := [("collaboration_synthesis", "True"),
            ("agents_involved",
              String.intercalate ", " (dictKeys collaboration_results))] }
    | none => Except.error
        "UnboundLocalError: local variable all_tools_used referenced before assignment"

/-- The body of the `try` block in `_handle_collaboration`: look up the
primary, identify secondaries, build the plan, run the steps, synthesize. -/
def collabBody (A : String → Agent) (message : String) (rd : RoutingDecision) :
    Except String AgentResponse := do
  let primary_agent := getAgent A rd.agent_name
  let secondary_agents := identifySecondaryAgents message rd.agent_name
  let collaboration_plan := createCollaborationPlan message rd.agent_name secondary_agents
  let collaboration_results ← executeSteps A collaboration_plan.steps
  synthesizeCollaborationResults message collaboration_results primary_agent

/-- `AgentCoordinator._handle_collaboration`: any exception inside the body is
caught and the coordinator falls back to the primary agent processing the
*original* message (an exception from that fallback call itself, or a missing
primary, propagates). -/
def handleCollaboration (A : String → Agent) (message : String)
    (rd : RoutingDecision) : Except String AgentResponse :=
  match collabBody A message rd with
  | Except.ok r => Except.ok r
  | Except.error _ =>
    match getAgent A rd.agent_name with
    | some primary => primary.processMessage message
    | none => Except.error
        "AttributeError: NoneType object has no attribute process_message"

/-! ## Coordinator lemmas and claims about collaboration -/

/-- C9: the collaboration gate is a boolean that is true exactly when one of
the three triggers holds — a fixed multi-domain phrase occurs in the message,
at least two of the domain keywords occur, or the message has more than 50
words; in particular it fires on "research and write an article" and not on
"what is the capital of France". -/
theorem collaboration_gate_three_triggers :
    (∀ message, checkCollaborationNeed message = true ↔
      (collaborationIndicators.any
        (fun ind => containsSubstr ind (pyLower message)) = true ∨
       2 ≤ collaborationDomains.countP
        (fun d => containsSubstr d (pyLower message)) ∨
       50 < (pySplit message).length)) ∧
    checkCollaborationNeed "research and write an article" = true ∧
    checkCollaborationNeed "what is the capital of France" = false := by
  refine ⟨?_, by decide, by decide⟩
  intro message
  unfold checkCollaborationNeed
  split
  · simp [*]
  · split
    · simp [*]
    · split
      · simp [*]
      · simp_all

/-- If some step of the list fails when reached (its agent exists and raises on
its task), the sequential execution loop raises, whatever the accumulated
results so far. -/
theorem foldlM_stepAction_error (A : String → Agent)
    (steps : List CollaborationStep) (s : CollaborationStep) (ag : Agent)
    (e : String) (hmem : s ∈ steps) (hagent : s.agent ≠ "") (htask : s.task ≠ "")
    (hget : getAgent A s.agent = some ag)
    (hfail : ag.processMessage s.task = Except.error e) :
    ∀ init, ∃ e', steps.foldlM (stepAction A) init = Except.error e' := by
  induction steps with
  | nil => cases hmem
  | cons s₀ rest ih =>
    intro init
    rcases List.mem_cons.mp hmem with rfl | hrest
    · refine ⟨e, ?_⟩
      rw [List.foldlM_cons]
      have hact : stepAction A init s = Except.error e := by
        unfold stepAction
        rw [if_pos ⟨hagent, htask⟩, hget]
        simp [hfail]
      rw [hact]
      rfl
    · cases hact : stepAction A init s₀ with
      | error e₀ =>
        refine ⟨e₀, ?_⟩
        rw [List.foldlM_cons, hact]
        rfl
      | ok b =>
        obtain ⟨e', h⟩ := ih hrest b
        refine ⟨e', ?_⟩
        rw [List.foldlM_cons, hact]
        simpa using h

/-- C1 counterexample input: the primary is "task"; the research agent raises
on every invocation, the creative agent succeeds, and the task agent answers
"DIRECT" on the original message and "SYNTH" on anything else (in particular
on the synthesis prompt and the synthesis plan step). -/
def stubResponse (content agent : String) : AgentResponse :=
  { content := content, agent_name := agent, tools_used := [],
    confidence := 9/10, reasoning := none, metadata := [] }

def cexAgents : String → Agent := fun name =>
  if name = "research" then
    { canHandle := fun _ => some 1,
      processMessage := fun _ => Except.error "research step failed" }
  else if name = "creative" then
    { canHandle := fun _ => some 1,
      processMessage := fun _ => Except.ok (stubResponse "CREATIVE" "creative") }
  else
    { canHandle := fun _ => some 1,
      processMessage := fun m =>
        if m = "research and write a story" then
          Except.ok (stubResponse "DIRECT" "task")
        else Except.ok (stubResponse "SYNTH" "task") }

def cexRouting : RoutingDecision :=
  { agent_name := "task", confidence := 9/10, reasoning := "routed",
    alternative_agents := [] }

/-- C1 counterexample: on "research and write a story" with primary "task",
the plan's first secondary step (research) raises.  Were the failed step
skipped with collaboration continuing through the remaining steps and the
synthesis step, the result would be the primary's synthesis answer "SYNTH";
instead `_handle_collaboration` aborts the whole collaboration and returns the
primary's direct answer "DIRECT" to the original message. -/
theorem collaboration_step_failure_counterexample :
    handleCollaboration cexAgents "research and write a story" cexRouting =
      Except.ok (stubResponse "DIRECT" "task") ∧
    stubResponse "DIRECT" "task" ≠ stubResponse "SYNTH" "task" := by
  constructor
  · rfl
  · decide

/-- C1 (amended): a raising secondary step is not skipped — it aborts the
whole collaboration (remaining steps and synthesis are abandoned) and
`_handle_collaboration` falls back to the primary agent processing the
original message.  The failure itself still does not escape
`_handle_collaboration`; only a failure of the fallback call would. -/
theorem collaboration_step_failure_aborts_to_primary (A : String → Agent)
    (message : String) (rd : RoutingDecision)
    (hstep : ∃ s ∈ (createCollaborationPlan message rd.agent_name
        (identifySecondaryAgents message rd.agent_name)).steps,
      s.agent ≠ "" ∧ s.task ≠ "" ∧
      ∃ ag, getAgent A s.agent = some ag ∧
      ∃ e, ag.processMessage s.task = Except.error e) :
    handleCollaboration A message rd =
      match getAgent A rd.agent_name with
      | some primary => primary.processMessage message
      | none => Except.error
          "AttributeError: NoneType object has no attribute process_message" := by
  obtain ⟨s, hmem, hagent, htask, ag, hget, e, hfail⟩ := hstep
  obtain ⟨e', hsteps⟩ :=
    foldlM_stepAction_error A _ s ag e hmem hagent htask hget hfail []
  have hbody : collabBody A message rd = Except.error e' := by
    simp only [collabBody, executeSteps]
    rw [hsteps]
    rfl
  unfold handleCollaboration
  rw [hbody]

/-- Witness for the amended C1 at a concrete collaboration (message
"research and write a poem", primary "task", raising research agent). -/
theorem collaboration_step_failure_aborts_to_primary_witness :
    handleCollaboration cexAgents "research and write a poem" cexRouting =
      Except.ok (stubResponse "SYNTH" "task") := by
  have h := collaboration_step_failure_aborts_to_primary cexAgents
    "research and write a poem" cexRouting
    ⟨⟨"research", "Research background information related to: research and write a poem", 1⟩,
      by decide, by decide, by decide,
      cexAgents "research", rfl, "research step failed", rfl⟩
  rw [h]
  rfl

/-- C2 failing input: a results map holding one secondary result, and a
primary agent whose synthesis invocation raises. -/
def c2Results : List (String × AgentResponse) :=
  [("research",
    { content := "research findings", agent_name := "research",
      tools_used := ["web_search"], confidence := 8/10,
      reasoning := none, metadata := [] })]

def c2FailingPrimary : Agent :=
  { canHandle := fun _ => some 1,
    processMessage := fun _ => Except.error "synthesis model unavailable" }

/-- C2: the manual-concatenation fallback of
`_synthesize_collaboration_results` is unreachable as written — when the
synthesis call raises, the `except` block evaluates
`list(set(all_tools_used))`, but `all_tools_used` is assigned only inside the
`try` *after* the raising call, so the fallback itself raises
`UnboundLocalError` instead of returning the manually concatenated
0.7-confidence response the code (and the spec) intend. -/
theorem synthesis_fallback_raises_unbound_local :
    synthesizeCollaborationResults "write an article" c2Results
      (some c2FailingPrimary) =
    Except.error
      "UnboundLocalError: local variable all_tools_used referenced before assignment" := by
  rfl

/-! ## memory/context.py -/

/-- `settings.max_conversation_history` (src/config.py). -/
def maxConversationHistory : ℕ := 100

structure ContextEntry where
  timestamp : ℕ
  user_message : String
  assistant_response : String
  agent_name : String
  context_type : String
  metadata : List (String × String)
deriving Repr, DecidableEq

structure TopicRecord where
  timestamp : ℕ
  topics : List String
  message_snippet : String
deriving Repr, DecidableEq

structure ContextMetadata where
  created_at : ℕ
  agent_name : String
  total_interactions : ℕ
  last_activity : Option ℕ
deriving Repr, DecidableEq

structure Preference where
  statement : String
  timestamp : ℕ
deriving Repr, DecidableEq

structure ConversationState where
  current_task : Option String
  user_preferences : List (String × Preference)
  active_context : List (String × String)
  conversation_mode : String
deriving Repr, DecidableEq

/-- The `conversation_state` dict as (re)initialised in `__init__`/`clear_context`. -/
def initialConversationState : ConversationState :=
  { current_task := none, user_preferences := [], active_context := [],
    conversation_mode := "general" }

structure ConversationContext where
  agent_name : String
  max_memory_size : ℕ
  recent_memory : List ContextEntry
  current_topics : List String
  topic_history : List TopicRecord
  context_metadata : ContextMetadata
  conversation_state : ConversationState
deriving Repr, DecidableEq

/-- `ConversationContext.__init__`.  Python's
`max_memory_size or settings.max_conversation_history` treats both `None`
and `0` as falsy. -/
def initContext (agent_name : String) (max_memory_size : Option ℕ) (now : ℕ) :
    ConversationContext :=
  { agent_name := agent_name,
    max_memory_size :=
      match max_memory_size with
      | some n => if n = 0 then maxConversationHistory else n
      | none => maxConversationHistory,
    recent_memory := [],
    current_topics := [],
    topic_history := [],
    context_metadata :=
      { created_at := now, agent_name := agent_name,
        total_interactions := 0, last_activity := none },
    conversation_state := initialConversationState }

/-- Python `str[:n]`. -/
def pyTake (s : String) (n : ℕ) : String := String.mk (s.toList.take n)

/-- `deque(maxlen = cap).append`: evict from the front when over capacity. -/
def dequeAppend {α : Type} (cap : ℕ) (l : List α) (x : α) : List α :=
  (l ++ [x]).drop ((l ++ [x]).length - cap)

/-- `topic_keywords` in `_extract_topics`. -/
def topicKeywords : List (String × List String) :=
  [("programming", ["code", "program", "script", "development", "software", "algorithm"]),
   ("research", ["research", "study", "analyze", "information", "data", "facts"]),
   ("creative", ["create", "write", "design", "story", "creative", "idea"]),
   ("planning", ["plan", "organize", "schedule", "task", "project", "goal"]),
   ("technology", ["ai", "machine learning", "tech", "computer", "digital"]),
   ("business", ["business", "company", "market", "strategy", "finance"]),
   ("education", ["learn", "teach", "course", "study", "tutorial", "explain"]),
   ("science", ["science", "research", "experiment", "hypothesis", "theory"])]

/-- Python `set.update` on the topics set modelled as a deduplicated list. -/
def setUnion (l add : List String) : List String :=
  add.foldl (fun acc t => if t ∈ acc then acc else acc ++ [t]) l

/-- `ConversationContext._extract_topics`: collect matching topics, union them
into `current_topics`, append a dated topic-history record when any matched,
and keep only the last 50 history records. -/
def extractTopics (c : ConversationContext) (message : String) (now : ℕ) :
    ConversationContext :=
  let new_topics := (topicKeywords.filter
    (fun p => p.2.any (fun k => containsSubstr k (pyLower message)))).map (fun p => p.1)
  let c1 := { c with current_topics := setUnion c.current_topics new_topics }
  let c2 :=
    if new_topics ≠ [] then
      { c1 with topic_history := c1.topic_history ++
        [{ timestamp := now, topics := new_topics,
           message_snippet := pyTake message 100 }] }
    else c1
  if 50 < c2.topic_history.length then
    { c2 with topic_history := c2.topic_history.drop (c2.topic_history.length - 50) }
  else c2

/-- `task_indicators` in `_update_conversation_state`. -/
def taskIndicators : List String :=
  ["help me", "i need to", "can you", "please", "task", "project"]

/-- `preference_indicators` in `_update_conversation_state`. -/
def preferenceIndicators : List String :=
  ["i prefer", "i like", "i don\x27t like", "i want", "i need"]

/-- `ConversationContext._update_conversation_state`. -/
def updateConversationState (st : ConversationState) (user_message : String)
    (now : ℕ) : ConversationState :=
  let st1 :=
    if taskIndicators.any (fun i => containsSubstr i (pyLower user_message)) ∧
        20 < user_message.length then
      { st with current_task := some (pyTake user_message 200) }
    else st
  let st2 := preferenceIndicators.foldl (fun st ind =>
    if containsSubstr ind (pyLower user_message) then
      { st with user_preferences := st.user_preferences ++
        [("preference_" ++ toString st.user_preferences.length,
          { statement := user_message, timestamp := now })] }
    else st) st1
  if ["creative", "brainstorm", "idea"].any
      (fun w => containsSubstr w (pyLower user_message)) then
    { st2 with conversation_mode := "creative" }
  else if ["analyze", "research", "study"].any
      (fun w => containsSubstr w (pyLower user_message)) then
    { st2 with conversation_mode := "analytical" }
  else if ["plan", "organize", "task"].any
      (fun w => containsSubstr w (pyLower user_message)) then
    { st2 with conversation_mode := "planning" }
  else if ["code", "program", "debug"].any
      (fun w => containsSubstr w (pyLower user_message)) then
    { st2 with conversation_mode := "technical" }
  else st2

/-- `ConversationContext.add_interaction` (its internal try/except cannot fire
here: the body is pure computation in this model). -/
def addInteraction (c : ConversationContext)
    (user_message assistant_response : String) (context_type : String)
    (metadata : List (String × String)) (now : ℕ) : ConversationContext :=
  let entry : ContextEntry :=
    { timestamp := now, user_message := user_message,
      assistant_response := assistant_response, agent_name := c.agent_name,
      context_type := context_type, metadata := metadata }
  let c1 := { c with
    recent_memory := dequeAppend c.max_memory_size c.recent_memory entry,
    context_metadata := { c.context_metadata with
      total_interactions := c.context_metadata.total_interactions + 1,
      last_activity := some entry.timestamp } }
  let c2 := extractTopics c1 user_message now
  { c2 with conversation_state :=
      updateConversationState c2.conversation_state user_message now }

structure MessageDict where
  user : String
  assistant : String
  timestamp : ℕ
  agent : String
deriving Repr, DecidableEq

/-- Python `l[-count:]`: for `count = 0` this is the whole list. -/
def pyLastSlice {α : Type} (l : List α) (count : ℕ) : List α :=
  if count = 0 then l else l.drop (l.length - count)

/-- `ConversationContext.get_recent_messages`. -/
def getRecentMessages (c : ConversationContext) (count : ℕ) : List MessageDict :=
  (pyLastSlice c.recent_memory count).map (fun e =>
    { user := e.user_message, assistant := e.assistant_response,
      timestamp := e.timestamp, agent := e.agent_name })

/-- `ConversationContext.clear_context`. -/
def clearContext (c : ConversationContext) : ConversationContext :=
  { c with
    recent_memory := [],
    current_topics := [],
    topic_history := [],
    conversation_state := initialConversationState,
    context_metadata := { c.context_metadata with
      total_interactions := 0, last_activity := none } }

/-- The payload produced by `export_context` (the `asdict`/"ContextEntry(**d)"
JSON round trip of entries is the identity in this model). -/
structure ContextExport where
  agent_name : String
  context_metadata : ContextMetadata
  recent_memory : List ContextEntry
  current_topics : List String
  topic_history : List TopicRecord
  conversation_state : ConversationState
  exported_at : ℕ
deriving Repr, DecidableEq

/-- `ConversationContext.export_context`. -/
def exportContext (c : ConversationContext) (now : ℕ) : ContextExport :=
  { agent_name := c.agent_name,
    context_metadata := c.context_metadata,
    recent_memory := c.recent_memory,
    current_topics := c.current_topics,
    topic_history := c.topic_history,
    conversation_state := c.conversation_state,
    exported_at := now }

/-- `ConversationContext.import_context`: clear, then replace every field from
the payload; the entries are re-appended one by one into the maxlen deque.
`agent_name` and `max_memory_size` are not part of the import and keep the
importing instance's values. -/
def importContext (c : ConversationContext) (data : ContextExport) :
    ConversationContext :=
  let c0 := clearContext c
  let c1 := { c0 with context_metadata := data.context_metadata }
  let c2 := { c1 with recent_memory :=
    data.recent_memory.foldl (dequeAppend c1.max_memory_size) c1.recent_memory }
  { c2 with
    current_topics := data.current_topics,
    topic_history := data.topic_history,
    conversation_state := data.conversation_state }

/-! ## Memory lemmas and claims -/

/-- The last `cap` elements of a list. -/
def lastN {α : Type} (cap : ℕ) (l : List α) : List α := l.drop (l.length - cap)

theorem dequeAppend_eq_lastN {α : Type} (cap : ℕ) (l : List α) (x : α) :
    dequeAppend cap l x = lastN cap (l ++ [x]) := rfl

/-- Appending to the kept suffix keeps the same suffix of the longer list. -/
theorem lastN_append_single {α : Type} (cap : ℕ) (l : List α) (x : α) :
    lastN cap (lastN cap l ++ [x]) = lastN cap (l ++ [x]) := by
  unfold lastN
  rw [← List.drop_append_of_le_length (Nat.sub_le l.length cap)]
  rw [List.drop_drop]
  congr 1
  simp only [List.length_append, List.length_drop, List.length_cons,
    List.length_nil]
  omega

/-- Folding deque appends starting from a kept suffix keeps the suffix of the
whole history. -/
theorem foldl_dequeAppend_lastN {α : Type} (cap : ℕ) (ys : List α) :
    ∀ l : List α, ys.foldl (dequeAppend cap) (lastN cap l) = lastN cap (l ++ ys) := by
  induction ys with
  | nil =>
    intro l
    simp [lastN]
  | cons y ys ih =>
    intro l
    rw [List.foldl_cons, dequeAppend_eq_lastN, lastN_append_single]
    simpa [List.append_assoc] using ih (l ++ [y])

/-- `_extract_topics` only touches the topic fields. -/
theorem extractTopics_fields (c : ConversationContext) (m : String) (now : ℕ) :
    (extractTopics c m now).recent_memory = c.recent_memory ∧
    (extractTopics c m now).agent_name = c.agent_name ∧
    (extractTopics c m now).max_memory_size = c.max_memory_size ∧
    (extractTopics c m now).context_metadata = c.context_metadata ∧
    (extractTopics c m now).conversation_state = c.conversation_state := by
  unfold extractTopics
  dsimp only
  refine ⟨?_, ?_, ?_, ?_, ?_⟩ <;> (split <;> split <;> rfl)

/-- What `add_interaction` does to the memory queue and to the fields the
claims track. -/
theorem addInteraction_fields (c : ConversationContext) (u a t : String)
    (md : List (String × String)) (now : ℕ) :
    (addInteraction c u a t md now).recent_memory =
      dequeAppend c.max_memory_size c.recent_memory
        { timestamp := now, user_message := u, assistant_response := a,
          agent_name := c.agent_name, context_type := t, metadata := md } ∧
    (addInteraction c u a t md now).agent_name = c.agent_name ∧
    (addInteraction c u a t md now).max_memory_size = c.max_memory_size := by
  unfold addInteraction
  dsimp only
  have h := extractTopics_fields
    { c with
      recent_memory := dequeAppend c.max_memory_size c.recent_memory
        { timestamp := now, user_message := u, assistant_response := a,
          agent_name := c.agent_name, context_type := t, metadata := md },
      context_metadata := { c.context_metadata with
        total_interactions := c.context_metadata.total_interactions + 1,
        last_activity := some now } } u now
  exact ⟨h.1, h.2.1, h.2.2.1⟩

/-- One recording in the shape the fold-based claims use:
`add_interaction` with the default `context_type`/`metadata`. -/
def recordStep (c : ConversationContext) (x : String × String × ℕ) :
    ConversationContext :=
  addInteraction c x.1 x.2.1 "conversation" [] x.2.2

/-- The `ContextEntry` a recording appends. -/
def recordedEntry (agent : String) (x : String × String × ℕ) : ContextEntry :=
  { timestamp := x.2.2, user_message := x.1, assistant_response := x.2.1,
    agent_name := agent, context_type := "conversation", metadata := [] }

/-- After any sequence of recordings, the memory is exactly the last
`max_memory_size` of the full recorded history. -/
theorem fold_recordStep_memory (xs : List (String × String × ℕ)) :
    ∀ (c : ConversationContext) (l : List ContextEntry),
      c.recent_memory = lastN c.max_memory_size l →
      (xs.foldl recordStep c).agent_name = c.agent_name ∧
      (xs.foldl recordStep c).max_memory_size = c.max_memory_size ∧
      (xs.foldl recordStep c).recent_memory =
        lastN c.max_memory_size (l ++ xs.map (recordedEntry c.agent_name)) := by
  induction xs with
  | nil =>
    intro c l h
    refine ⟨rfl, rfl, ?_⟩
    simpa using h
  | cons x xs ih =>
    intro c l h
    have hf := addInteraction_fields c x.1 x.2.1 "conversation" [] x.2.2
    have hmem : (recordStep c x).recent_memory =
        lastN c.max_memory_size (l ++ [recordedEntry c.agent_name x]) := by
      show (addInteraction c x.1 x.2.1 "conversation" [] x.2.2).recent_memory = _
      rw [hf.1, h, dequeAppend_eq_lastN, lastN_append_single]
      rfl
    have hcap : (recordStep c x).max_memory_size = c.max_memory_size := hf.2.2
    have hname : (recordStep c x).agent_name = c.agent_name := hf.2.1
    have hrec := ih (recordStep c x) (l ++ [recordedEntry c.agent_name x])
      (by rw [hmem, hcap])
    refine ⟨?_, ?_, ?_⟩
    · rw [List.foldl_cons, hrec.1, hname]
    · rw [List.foldl_cons, hrec.2.1, hcap]
    · rw [List.foldl_cons, hrec.2.2, hcap, hname]
      simp [List.append_assoc]

/-- C5: with configured capacity N ≥ 1, after *any* sequence of recorded
interactions the per-agent memory holds at most N entries, and whenever the
sequence has length N + k, `recent(N)` returns exactly the last N recorded
interactions in chronological (oldest-first) order. -/
theorem memory_capacity_and_recent_order (agent : String) (N k t0 : ℕ)
    (hN : 0 < N) (xs : List (String × String × ℕ)) :
    (xs.foldl recordStep (initContext agent (some N) t0)).recent_memory.length ≤ N ∧
    (xs.length = N + k →
      getRecentMessages (xs.foldl recordStep (initContext agent (some N) t0)) N =
        (xs.map (fun x => MessageDict.mk x.1 x.2.1 x.2.2 agent)).drop k) := by
  have hcapval : (initContext agent (some N) t0).max_memory_size = N := by
    show (if N = 0 then maxConversationHistory else N) = N
    rw [if_neg (by omega)]
  have hinit : (initContext agent (some N) t0).recent_memory =
      lastN (initContext agent (some N) t0).max_memory_size [] := by
    simp [lastN, initContext]
  obtain ⟨hname, hcap, hmem⟩ :=
    fold_recordStep_memory xs (initContext agent (some N) t0) [] hinit
  have hnameval : (initContext agent (some N) t0).agent_name = agent := rfl
  rw [hcapval] at hmem hcap
  rw [hnameval] at hmem hname
  simp only [List.nil_append] at hmem
  constructor
  · rw [hmem]
    unfold lastN
    rw [List.length_drop]
    omega
  · intro hlen
    have hmaplen : (xs.map (recordedEntry agent)).length = N + k := by
      rw [List.length_map, hlen]
    have hmemlen : (xs.foldl recordStep
        (initContext agent (some N) t0)).recent_memory.length = N := by
      rw [hmem]
      unfold lastN
      rw [List.length_drop, hmaplen]
      omega
    unfold getRecentMessages pyLastSlice
    rw [if_neg (by omega : ¬ N = 0)]
    rw [hmemlen, Nat.sub_self, List.drop_zero, hmem]
    unfold lastN
    rw [hmaplen]
    have : N + k - N = k := by omega
    rw [this]
    rw [← List.map_drop, ← List.map_drop, List.map_map]
    rfl

/-- Witness for C5: capacity 2, recording A, B, C; `recent(2)` is [B, C]. -/
theorem memory_capacity_and_recent_order_witness :
    ([("A", "ra", 1), ("B", "rb", 2), ("C", "rc", 3)].foldl recordStep
      (initContext "coordinator" (some 2) 0)).recent_memory.length ≤ 2 ∧
    getRecentMessages ([("A", "ra", 1), ("B", "rb", 2), ("C", "rc", 3)].foldl
      recordStep (initContext "coordinator" (some 2) 0)) 2 =
      ([("A", "ra", 1), ("B", "rb", 2), ("C", "rc", 3)].map
        (fun x => MessageDict.mk x.1 x.2.1 x.2.2 "coordinator")).drop 1 :=
  ⟨(memory_capacity_and_recent_order "coordinator" 2 1 0 (by omega)
      [("A", "ra", 1), ("B", "rb", 2), ("C", "rc", 3)]).1,
    (memory_capacity_and_recent_order "coordinator" 2 1 0 (by omega)
      [("A", "ra", 1), ("B", "rb", 2), ("C", "rc", 3)]).2 (by decide)⟩

/-- C6: export followed by clear followed by import reproduces the state —
in fact import from any instance with the same agent name and capacity
rebuilds exactly the exported state (full replacement, no merge), so
`recent(n)` is identical before and after the round trip. -/
theorem memory_export_import_fully_replaces (c t : ConversationContext) (now : ℕ)
    (hlen : c.recent_memory.length ≤ c.max_memory_size)
    (hname : t.agent_name = c.agent_name)
    (hcap : t.max_memory_size = c.max_memory_size) :
    importContext t (exportContext c now) = c ∧
    ∀ n, getRecentMessages (importContext t (exportContext c now)) n =
      getRecentMessages c n := by
  have hfold : c.recent_memory.foldl (dequeAppend t.max_memory_size) [] =
      c.recent_memory := by
    have h0 : ([] : List ContextEntry) = lastN t.max_memory_size [] := by
      simp [lastN]
    rw [h0, foldl_dequeAppend_lastN]
    unfold lastN
    simp only [List.nil_append]
    rw [hcap, Nat.sub_eq_zero_of_le hlen, List.drop_zero]
  have hmain : importContext t (exportContext c now) = c := by
    unfold importContext exportContext clearContext
    dsimp only
    cases c with
    | mk a m rm ct th cm cs =>
      simp only [ConversationContext.mk.injEq]
      exact ⟨hname, hcap, hfold, trivial, trivial, trivial, trivial⟩
  exact ⟨hmain, fun n => by rw [hmain]⟩

/-- A concrete one-entry context for the C6 witness. -/
def c6Context : ConversationContext :=
  addInteraction (initContext "coordinator" (some 2) 0) "hello there" "hi" "conversation" [] 1

/-- Witness for C6: the round trip `export; clear; import` on a concrete
context restores it, and `recent(1)` agrees before and after. -/
theorem memory_export_import_fully_replaces_witness :
    importContext (clearContext c6Context) (exportContext c6Context 5) = c6Context ∧
    getRecentMessages (importContext (clearContext c6Context)
      (exportContext c6Context 5)) 1 = getRecentMessages c6Context 1 := by
  have h := memory_export_import_fully_replaces c6Context (clearContext c6Context) 5
    (by decide) rfl rfl
  exact ⟨h.1, h.2 1⟩

/-- C10: import preserves the capacity bound — whatever the payload size, the
imported memory is exactly the last `max_memory_size` payload entries in
order, hence never more than the capacity. -/
theorem import_bounds_memory_to_capacity (t : ConversationContext)
    (data : ContextExport) :
    (importContext t data).recent_memory =
      data.recent_memory.drop (data.recent_memory.length - t.max_memory_size) ∧
    (importContext t data).recent_memory.length ≤ t.max_memory_size := by
  have hmem : (importContext t data).recent_memory =
      data.recent_memory.foldl (dequeAppend t.max_memory_size) [] := rfl
  have h0 : ([] : List ContextEntry) = lastN t.max_memory_size [] := by
    simp [lastN]
  rw [hmem, h0, foldl_dequeAppend_lastN]
  unfold lastN
  simp only [List.nil_append, List.length_drop]
  exact ⟨trivial, by omega⟩

/-! ## memory/storage.py -/

structure ConversationEntry where
  session_id : String
  timestamp : ℕ
  user_message : String
  agent_response : String
  agent_used : String
  tools_used : List String
  confidence : ℚ
  routing_confidence : ℚ
  metadata : List (String × String)
deriving Repr, DecidableEq

structure SessionMetadataRow where
  session_id : String
  created_at : ℕ
  last_activity : ℕ
  message_count : ℕ
deriving Repr, DecidableEq

/-- The durable state: the relational index (`conversations` table, rows in
insertion order), the per-session append-log files, and the
`session_metadata` table. -/
structure StorageState where
  conversations : List ConversationEntry
  sessionFiles : List (String × List ConversationEntry)
  sessionMeta : List SessionMetadataRow
deriving Repr, DecidableEq

def emptyStorage : StorageState :=
  { conversations := [], sessionFiles := [], sessionMeta := [] }

/-- `ConversationStorage._store_in_database`: insert one row. -/
def storeInDatabase (st : StorageState) (entry : ConversationEntry) :
    StorageState :=
  { st with conversations := st.conversations ++ [entry] }

/-- `ConversationStorage._store_in_session_file`: read the session's log (an
unreadable log counts as empty), append, keep the last
`max_conversation_history` entries, rewrite. -/
def storeInSessionFile (st : StorageState) (entry : ConversationEntry) :
    StorageState :=
  let session_data :=
    (((st.sessionFiles.find? (fun p => p.1 = entry.session_id)).map
      (fun p => p.2)).getD []) ++ [entry]
  let session_data :=
    if maxConversationHistory < session_data.length then
      session_data.drop (session_data.length - maxConversationHistory)
    else session_data
  { st with sessionFiles := dictSet st.sessionFiles entry.session_id session_data }

/-- `ConversationStorage._update_session_metadata`: increment and refresh the
session's row if present, else insert a fresh row with count 1. -/
def updateSessionMetadata (st : StorageState) (session_id : String) (now : ℕ) :
    StorageState :=
  if st.sessionMeta.any (fun r => r.session_id = session_id) then
    { st with sessionMeta := st.sessionMeta.map (fun r =>
        if r.session_id = session_id then
          { r with last_activity := now, message_count := r.message_count + 1 }
        else r) }
  else
    { st with sessionMeta := st.sessionMeta ++
        [{ session_id := session_id, created_at := now, last_activity := now,
           message_count := 1 }] }

/-- Which of the three sub-writes of one `store_conversation` call raise. -/
structure FailurePlan where
  dbFail : Bool
  fileFail : Bool
  metaFail : Bool
deriving Repr, DecidableEq

/-- `ConversationStorage.store_conversation`: the three sub-writes run in
order; each has its own try/except (and the sqlite `with` block commits only
on success, the log file is rewritten in one dump), so a raising sub-write
leaves the state unchanged and the next sub-write still runs.  `fp` injects
which sub-writes raise; `now` is the wall clock at the metadata update. -/
def storeConversation (fp : FailurePlan) (st : StorageState)
    (entry : ConversationEntry) (now : ℕ) : StorageState :=
  let st1 := if fp.dbFail then st else storeInDatabase st entry
  let st2 := if fp.fileFail then st1 else storeInSessionFile st1 entry
  if fp.metaFail then st2 else updateSessionMetadata st2 entry.session_id now

/-- One persist call of a sequence: the entry, the wall clock of the call, and
which sub-writes fail. -/
structure PersistOp where
  entry : ConversationEntry
  now : ℕ
  fp : FailurePlan
deriving Repr, DecidableEq

/-- A sequence of persist calls. -/
def runPersistOps (ops : List PersistOp) (st : StorageState) : StorageState :=
  ops.foldl (fun st op => storeConversation op.fp st op.entry op.now) st

/-- The §3 invariant of the spec: every relational-index row has a metadata
row for its session whose `message_count` is at least the number of index
rows of that session and whose `last_activity` is at least the row's
timestamp. -/
def storageInvariant (st : StorageState) : Prop :=
  ∀ entry ∈ st.conversations, ∃ meta ∈ st.sessionMeta,
    meta.session_id = entry.session_id ∧
    st.conversations.countP (fun e => e.session_id = entry.session_id) ≤
      meta.message_count ∧
    entry.timestamp ≤ meta.last_activity

/-- The invariant strengthened with a clock bound, for the induction over a
persist sequence. -/
def clockedInvariant (st : StorageState) (T : ℕ) : Prop :=
  storageInvariant st ∧
  (∀ meta ∈ st.sessionMeta, meta.last_activity ≤ T) ∧
  (∀ e ∈ st.conversations, e.timestamp ≤ T)

/-! ## Storage lemmas -/

theorem storeInSessionFile_conversations (st : StorageState)
    (e : ConversationEntry) :
    (storeInSessionFile st e).conversations = st.conversations := rfl

theorem storeInSessionFile_sessionMeta (st : StorageState)
    (e : ConversationEntry) :
    (storeInSessionFile st e).sessionMeta = st.sessionMeta := rfl

theorem updateSessionMetadata_conversations (st : StorageState) (sid : String)
    (now : ℕ) :
    (updateSessionMetadata st sid now).conversations = st.conversations := by
  unfold updateSessionMetadata
  split <;> rfl

/-- The invariant only reads the relational index and the metadata table. -/
theorem storageInvariant_congr {st st' : StorageState}
    (hc : st'.conversations = st.conversations)
    (hm : st'.sessionMeta = st.sessionMeta) (h : storageInvariant st) :
    storageInvariant st' := by
  intro e he
  rw [hc] at he
  obtain ⟨meta, hmem, h1, h2, h3⟩ := h e he
  refine ⟨meta, ?_, h1, ?_, h3⟩
  · rw [hm]; exact hmem
  · rw [hc]; exact h2

theorem clockedInvariant_mono {st : StorageState} {T U : ℕ}
    (h : clockedInvariant st T) (hle : T ≤ U) : clockedInvariant st U :=
  ⟨h.1, fun m hm => le_trans (h.2.1 m hm) hle,
    fun e he => le_trans (h.2.2 e he) hle⟩

theorem clockedInvariant_congr {st st' : StorageState} {T : ℕ}
    (hc : st'.conversations = st.conversations)
    (hm : st'.sessionMeta = st.sessionMeta) (h : clockedInvariant st T) :
    clockedInvariant st' T := by
  refine ⟨storageInvariant_congr hc hm h.1, ?_, ?_⟩
  · rw [hm]; exact h.2.1
  · rw [hc]; exact h.2.2

/-- A metadata row of another session survives the upsert untouched. -/
theorem updateSessionMetadata_keeps_other (st : StorageState) (sid : String)
    (now : ℕ) (meta : SessionMetadataRow) (hmem : meta ∈ st.sessionMeta)
    (hne : meta.session_id ≠ sid) :
    meta ∈ (updateSessionMetadata st sid now).sessionMeta := by
  unfold updateSessionMetadata
  split
  · refine List.mem_map.mpr ⟨meta, hmem, ?_⟩
    simp [hne]
  · exact List.mem_append_left _ hmem

/-- After the upsert there is a row for the session whose count tops any lower
bound on a pre-existing row's count by one (or is 1 from nothing) and whose
`last_activity` is the update clock. -/
theorem updateSessionMetadata_for_sid (st : StorageState) (sid : String)
    (now : ℕ) (k : ℕ)
    (hk : k = 0 ∨ ∃ meta ∈ st.sessionMeta, meta.session_id = sid ∧
      k ≤ meta.message_count) :
    ∃ meta ∈ (updateSessionMetadata st sid now).sessionMeta,
      meta.session_id = sid ∧ k + 1 ≤ meta.message_count ∧
      meta.last_activity = now := by
  unfold updateSessionMetadata
  split
  · rename_i hany
    rw [List.any_eq_true] at hany
    obtain ⟨r0, hr0mem, hr0sid⟩ := hany
    have hsid : r0.session_id = sid := of_decide_eq_true hr0sid
    rcases hk with rfl | ⟨m, hm, hmsid, hmk⟩
    · refine ⟨_, List.mem_map.mpr ⟨r0, hr0mem, rfl⟩, ?_⟩
      rw [if_pos hsid]
      exact ⟨hsid, by dsimp only; omega, rfl⟩
    · refine ⟨_, List.mem_map.mpr ⟨m, hm, rfl⟩, ?_⟩
      rw [if_pos hmsid]
      exact ⟨hmsid, by dsimp only; omega, rfl⟩
  · rename_i hany
    refine ⟨SessionMetadataRow.mk sid now now 1,
      List.mem_append_right _ (List.mem_singleton_self _), rfl, ?_, rfl⟩
    rcases hk with rfl | ⟨m, hm, hmsid, hmk⟩
    · dsimp only
      omega
    · exact absurd (List.any_eq_true.mpr ⟨m, hm, decide_eq_true hmsid⟩) hany

/-- Every metadata row after the upsert respects the new clock. -/
theorem updateSessionMetadata_clock (st : StorageState) (sid : String)
    (now T : ℕ) (hT : T ≤ now)
    (h : ∀ m ∈ st.sessionMeta, m.last_activity ≤ T) :
    ∀ m ∈ (updateSessionMetadata st sid now).sessionMeta,
      m.last_activity ≤ now := by
  unfold updateSessionMetadata
  split
  · intro m hm
    obtain ⟨r, hr, rfl⟩ := List.mem_map.mp hm
    by_cases hs : r.session_id = sid
    · rw [if_pos hs]
    · rw [if_neg hs]
      exact le_trans (h r hr) hT
  · intro m hm
    rcases List.mem_append.mp hm with h1 | h1
    · exact le_trans (h m h1) hT
    · rw [List.mem_singleton] at h1
      subst h1
      exact le_refl now

/-- The upsert alone (no new index row) preserves the invariant when all
stored timestamps are below the update clock. -/
theorem updateSessionMetadata_preserves_inv (st : StorageState) (sid : String)
    (now T : ℕ) (hinv : storageInvariant st)
    (hc : ∀ e ∈ st.conversations, e.timestamp ≤ T) (hT : T ≤ now) :
    storageInvariant (updateSessionMetadata st sid now) := by
  intro e he
  rw [updateSessionMetadata_conversations] at he
  obtain ⟨m, hm, h1, h2, h3⟩ := hinv e he
  by_cases hs : m.session_id = sid
  · have hk : st.conversations.countP (fun x => x.session_id = e.session_id) = 0 ∨
        ∃ meta ∈ st.sessionMeta, meta.session_id = sid ∧
          st.conversations.countP (fun x => x.session_id = e.session_id) ≤
            meta.message_count :=
      Or.inr ⟨m, hm, hs, h2⟩
    obtain ⟨m', hm', hsid', hcount', hlast'⟩ :=
      updateSessionMetadata_for_sid st sid now _ hk
    refine ⟨m', hm', ?_, ?_, ?_⟩
    · rw [hsid', ← hs, h1]
    · rw [updateSessionMetadata_conversations]
      omega
    · rw [hlast']
      exact le_trans (hc e he) hT
  · refine ⟨m, updateSessionMetadata_keeps_other st sid now m hm hs, h1, ?_, h3⟩
    rw [updateSessionMetadata_conversations]
    exact h2

/-- The heart of the metadata invariant: a successful database insert followed
by a successful metadata upsert re-establishes the clocked invariant
(stated over any `st1` whose index/metadata agree with the inserted state, to
cover both a succeeding and a failing session-file write in between). -/
theorem insert_then_update_preserves (st : StorageState)
    (entry : ConversationEntry) (now T : ℕ) (hinv : storageInvariant st)
    (hmclock : ∀ m ∈ st.sessionMeta, m.last_activity ≤ T)
    (hcclock : ∀ e ∈ st.conversations, e.timestamp ≤ T)
    (hts : entry.timestamp ≤ now) (hT : T ≤ now) (st1 : StorageState)
    (hc1 : st1.conversations = st.conversations ++ [entry])
    (hm1 : st1.sessionMeta = st.sessionMeta) :
    clockedInvariant (updateSessionMetadata st1 entry.session_id now) now := by
  have htsle : ∀ e ∈ st.conversations ++ [entry], e.timestamp ≤ now := by
    intro e he
    rcases List.mem_append.mp he with h1 | h1
    · exact le_trans (hcclock e h1) hT
    · rw [List.mem_singleton] at h1
      subst h1
      exact hts
  refine ⟨?_, ?_, ?_⟩
  · intro e he
    rw [updateSessionMetadata_conversations, hc1] at he
    by_cases hs : e.session_id = entry.session_id
    · have hcount :
          (st.conversations ++ [entry]).countP
            (fun x => x.session_id = e.session_id) =
          st.conversations.countP
            (fun x => x.session_id = entry.session_id) + 1 := by
        rw [List.countP_append]
        simp [hs]
      have hk : st.conversations.countP
            (fun x => x.session_id = entry.session_id) = 0 ∨
          ∃ meta ∈ st1.sessionMeta, meta.session_id = entry.session_id ∧
            st.conversations.countP
              (fun x => x.session_id = entry.session_id) ≤
              meta.message_count := by
        rcases Nat.eq_zero_or_pos (st.conversations.countP
            (fun x => x.session_id = entry.session_id)) with h0 | hpos
        · exact Or.inl h0
        · obtain ⟨e₀, he₀, hpe₀⟩ := List.countP_pos_iff.mp hpos
          have hse₀ : e₀.session_id = entry.session_id := of_decide_eq_true hpe₀
          obtain ⟨m, hm, hmsid, hmcount, -⟩ := hinv e₀ he₀
          refine Or.inr ⟨m, ?_, ?_, ?_⟩
          · rw [hm1]
            exact hm
          · rw [hmsid, hse₀]
          · simpa [hse₀] using hmcount
      obtain ⟨m', hm', hsid', hcnt', hlast'⟩ :=
        updateSessionMetadata_for_sid st1 entry.session_id now _ hk
      refine ⟨m', hm', ?_, ?_, ?_⟩
      · rw [hsid', hs]
      · rw [updateSessionMetadata_conversations, hc1, hcount]
        omega
      · rw [hlast']
        exact htsle e he
    · have he' : e ∈ st.conversations := by
        rcases List.mem_append.mp he with h1 | h1
        · exact h1
        · rw [List.mem_singleton] at h1
          subst h1
          exact absurd rfl hs
      obtain ⟨m, hm, h1, h2, h3⟩ := hinv e he'
      refine ⟨m, ?_, h1, ?_, h3⟩
      · refine updateSessionMetadata_keeps_other st1 entry.session_id now m ?_ ?_
        · rw [hm1]
          exact hm
        · rw [h1]
          exact hs
      · rw [updateSessionMetadata_conversations, hc1, List.countP_append]
        have hne : entry.session_id ≠ e.session_id := fun hh => hs hh.symm
        have hz : ([entry].countP fun x => x.session_id = e.session_id) = 0 := by
          simp [hne]
        omega
  · refine updateSessionMetadata_clock st1 entry.session_id now T hT ?_
    rw [hm1]
    exact hmclock
  · intro e he
    rw [updateSessionMetadata_conversations, hc1] at he
    exact htsle e he

/-- One `store_conversation` call preserves the clocked invariant provided its
metadata update succeeds whenever its database insert did. -/
theorem storeConversation_preserves_clocked (fp : FailurePlan)
    (st : StorageState) (entry : ConversationEntry) (now T : ℕ)
    (h : clockedInvariant st T) (hts : entry.timestamp ≤ now) (hT : T ≤ now)
    (hfp : fp.dbFail = false → fp.metaFail = false) :
    clockedInvariant (storeConversation fp st entry now) now := by
  obtain ⟨db, file, meta⟩ := fp
  cases db with
  | false =>
    have hmeta : meta = false := hfp rfl
    subst hmeta
    cases file with
    | false =>
      show clockedInvariant (updateSessionMetadata
        (storeInSessionFile (storeInDatabase st entry) entry)
        entry.session_id now) now
      exact insert_then_update_preserves st entry now T h.1 h.2.1 h.2.2 hts hT
        _ rfl rfl
    | true =>
      show clockedInvariant (updateSessionMetadata (storeInDatabase st entry)
        entry.session_id now) now
      exact insert_then_update_preserves st entry now T h.1 h.2.1 h.2.2 hts hT
        _ rfl rfl
  | true =>
    cases meta with
    | true =>
      cases file with
      | false =>
        show clockedInvariant (storeInSessionFile st entry) now
        exact clockedInvariant_congr rfl rfl (clockedInvariant_mono h hT)
      | true =>
        show clockedInvariant st now
        exact clockedInvariant_mono h hT
    | false =>
      cases file with
      | false =>
        show clockedInvariant (updateSessionMetadata (storeInSessionFile st entry)
          entry.session_id now) now
        refine ⟨?_, ?_, ?_⟩
        · exact updateSessionMetadata_preserves_inv _ _ now T
            (storageInvariant_congr rfl rfl h.1) (fun e he => h.2.2 e he) hT
        · exact updateSessionMetadata_clock _ _ now T hT (fun m hm => h.2.1 m hm)
        · intro e he
          rw [updateSessionMetadata_conversations] at he
          exact le_trans (h.2.2 e he) hT
      | true =>
        show clockedInvariant (updateSessionMetadata st entry.session_id now) now
        refine ⟨?_, ?_, ?_⟩
        · exact updateSessionMetadata_preserves_inv _ _ now T h.1 h.2.2 hT
        · exact updateSessionMetadata_clock _ _ now T hT h.2.1
        · intro e he
          rw [updateSessionMetadata_conversations] at he
          exact le_trans (h.2.2 e he) hT

/-- The clocked invariant carries over a whole persist sequence with
nondecreasing clocks. -/
theorem runPersistOps_invariant (ops : List PersistOp) :
    ∀ (st : StorageState) (T : ℕ), clockedInvariant st T →
      (∀ op ∈ ops, op.fp.dbFail = false → op.fp.metaFail = false) →
      (∀ op ∈ ops, op.entry.timestamp ≤ op.now) →
      (∀ op ∈ ops, T ≤ op.now) →
      ops.Pairwise (fun a b => a.now ≤ b.now) →
      storageInvariant (runPersistOps ops st) := by
  induction ops with
  | nil =>
    intro st T h _ _ _ _
    exact h.1
  | cons op ops ih =>
    intro st T h hfp hts hTle hpw
    have hstep := storeConversation_preserves_clocked op.fp st op.entry op.now T
      h (hts op (List.mem_cons_self _ _)) (hTle op (List.mem_cons_self _ _))
      (hfp op (List.mem_cons_self _ _))
    have hrun : runPersistOps (op :: ops) st =
        runPersistOps ops (storeConversation op.fp st op.entry op.now) := rfl
    rw [hrun]
    exact ih _ op.now hstep
      (fun o ho => hfp o (List.mem_cons_of_mem _ ho))
      (fun o ho => hts o (List.mem_cons_of_mem _ ho))
      (fun o ho => (List.pairwise_cons.mp hpw).1 o ho)
      (List.pairwise_cons.mp hpw).2

/-- A concrete entry for the C4 theorems. -/
def c4Entry : ConversationEntry :=
  { session_id := "s1", timestamp := 1, user_message := "hello",
    agent_response := "hi", agent_used := "research", tools_used := [],
    confidence := 9/10, routing_confidence := 8/10, metadata := [] }

/-- A second concrete entry, in another session. -/
def c4EntryB : ConversationEntry :=
  { session_id := "s2", timestamp := 3, user_message := "plan my day",
    agent_response := "sure", agent_used := "task", tools_used := [],
    confidence := 6/10, routing_confidence := 5/10, metadata := [] }

/-- C4 counterexample: one persist whose database insert succeeds but whose
swallowed metadata update fails leaves an index row with no metadata row at
all — the invariant does not survive arbitrary sub-write failures. -/
theorem storage_invariant_counterexample :
    ¬ storageInvariant
      (storeConversation ⟨false, false, true⟩ emptyStorage c4Entry 2) := by
  intro h
  have hconv : (storeConversation ⟨false, false, true⟩ emptyStorage
      c4Entry 2).conversations = [c4Entry] := rfl
  have hmeta : (storeConversation ⟨false, false, true⟩ emptyStorage
      c4Entry 2).sessionMeta = [] := rfl
  obtain ⟨meta, hmem, -⟩ := h c4Entry (by
    rw [hconv]
    exact List.mem_singleton_self _)
  rw [hmeta] at hmem
  exact List.not_mem_nil meta hmem

/-- C4 (amended): after any sequence of persist operations with nondecreasing
clocks, in which every entry's timestamp is at most its persist clock and the
metadata update succeeds whenever the database insert did (in particular any
failure-free sequence), every ConversationEntry in the relational index has a
SessionMetadata row for its session with `message_count` at least the number
of index rows for that session and `last_activity` at least the entry's
timestamp. -/
theorem storage_invariant_holds_when_meta_follows_db (ops : List PersistOp)
    (hfp : ∀ op ∈ ops, op.fp.dbFail = false → op.fp.metaFail = false)
    (hts : ∀ op ∈ ops, op.entry.timestamp ≤ op.now)
    (hpw : ops.Pairwise (fun a b => a.now ≤ b.now)) :
    storageInvariant (runPersistOps ops emptyStorage) := by
  refine runPersistOps_invariant ops emptyStorage 0 ?_ hfp hts
    (fun op _ => Nat.zero_le _) hpw
  exact ⟨fun e he => absurd he (List.not_mem_nil e),
    fun m hm => absurd hm (List.not_mem_nil m),
    fun e he => absurd he (List.not_mem_nil e)⟩

/-- Witness for the amended C4: a failure-free persist followed by one whose
database insert fails. -/
theorem storage_invariant_holds_when_meta_follows_db_witness :
    storageInvariant (runPersistOps
      [⟨c4Entry, 2, ⟨false, false, false⟩⟩, ⟨c4EntryB, 4, ⟨true, false, false⟩⟩]
      emptyStorage) :=
  storage_invariant_holds_when_meta_follows_db
    [⟨c4Entry, 2, ⟨false, false, false⟩⟩, ⟨c4EntryB, 4, ⟨true, false, false⟩⟩]
    (by decide) (by decide) (by decide)

/-! ## AgentCoordinator.process_message and claim C3 -/

/-- `CoordinatorResponse` from coordinator.py (nested metadata values are
rendered to strings; no claim inspects them). -/
structure CoordinatorResponse where
  content : String
  agent_used : String
  tools_used : List String
  confidence : ℚ
  reasoning : String
  metadata : List (String × String)
  session_id : String
  timestamp : ℕ
deriving Repr, DecidableEq

/-- The mutable per-coordinator state `process_message` touches. -/
structure CoordinatorState where
  session_id : String
  conversation_context : ConversationContext
  storage : StorageState
deriving Repr, DecidableEq

/-- `AgentCoordinator._store_conversation`: build the ConversationEntry and
hand it to `storage.store_conversation`; any exception from the store is
caught and logged, leaving the state unchanged.  `store` is the store's
behaviour (`Except.error` = it raises). -/
def storeConversationCaught
    (store : StorageState → ConversationEntry → Except String StorageState)
    (st : StorageState) (session_id : String) (message : String)
    (response : AgentResponse) (rd : RoutingDecision) (now : ℕ) :
    StorageState :=
  let entry : ConversationEntry :=
    { session_id := session_id, timestamp := now, user_message := message,
      agent_response := response.content, agent_used := response.agent_name,
      tools_used := response.tools_used, confidence := response.confidence,
      routing_confidence := rd.confidence, metadata := response.metadata }
  match store st entry with
  | Except.ok st' => st'
  | Except.error _ => st

/-- The routing-and-handling part of `process_message` (everything inside the
`try` before storing): route, look the agent up, then either run the
collaboration handler or the single routed agent. -/
def processPipeline (A : String → Agent) (message : String)
    (preferred : Option String) : RoutingDecision × Except String AgentResponse :=
  let rd := routeMessage (fun n => (A n).canHandle message) message preferred
  match getAgent A rd.agent_name with
  | none => (rd, Except.error ("Agent " ++ rd.agent_name ++ " not available"))
  | some agent =>
    if checkCollaborationNeed message then
      (rd, handleCollaboration A message rd)
    else
      (rd, agent.processMessage message)

/-- Python `response.reasoning or routing_decision.reasoning` (empty string
and `None` are both falsy). -/
def reasoningOr (r : Option String) (fallback : String) : String :=
  match r with
  | some s => if s = "" then fallback else s
  | none => fallback

/-- `AgentCoordinator.process_message`: route and handle, store the
conversation (store failures swallowed), record into the coordinator's
conversation context, and return the assembled `CoordinatorResponse`; any
exception in the pipeline yields the 0.1-confidence error response instead
(state unchanged).  `now` is the wall clock of the call. -/
def processMessage (A : String → Agent)
    (store : StorageState → ConversationEntry → Except String StorageState)
    (cs : CoordinatorState) (message : String) (preferred : Option String)
    (now : ℕ) : CoordinatorResponse × CoordinatorState :=
  match processPipeline A message preferred with
  | (rd, Except.ok response) =>
    let storage' := storeConversationCaught store cs.storage cs.session_id
      message response rd now
    let context' := addInteraction cs.conversation_context message
      response.content "conversation" [] now
    ({ content := response.content,
       agent_used := response.agent_name,
       tools_used := response.tools_used,
       confidence := response.confidence,
       reasoning := reasoningOr response.reasoning rd.reasoning,
       metadata := dictSet (dictSet (dictSet response.metadata
           "routing_decision" rd.agent_name)
         "collaboration_used"
           (if checkCollaborationNeed message then "True" else "False"))
         "session_id" cs.session_id,
       session_id := cs.session_id,
       timestamp := now },
     { cs with storage := storage', conversation_context := context' })
  | (_, Except.error e) =>
    ({ content :=
        "I apologize, but I encountered an error while processing your request: "
          ++ e,
       agent_used := "coordinator",
       tools_used := [],
       confidence := 1/10,
       reasoning := "Error during message processing",
       metadata := [("error", e)],
       session_id := cs.session_id,
       timestamp := now },
     cs)

/-- C3: a failing durable-store write never escapes nor affects `process()`:
for any store behaviour (including one that raises on every database insert,
session-file write or metadata update), the returned response is identical to
the one produced with any other store, and when the agent pipeline succeeds
the response's content, agent and confidence are the pipeline's. -/
theorem process_survives_store_failure (A : String → Agent)
    (store badStore : StorageState → ConversationEntry → Except String StorageState)
    (cs : CoordinatorState) (message : String) (preferred : Option String)
    (now : ℕ) (resp : AgentResponse)
    (hok : (processPipeline A message preferred).2 = Except.ok resp) :
    (processMessage A badStore cs message preferred now).1 =
      (processMessage A store cs message preferred now).1 ∧
    (processMessage A badStore cs message preferred now).1.content = resp.content ∧
    (processMessage A badStore cs message preferred now).1.agent_used =
      resp.agent_name ∧
    (processMessage A badStore cs message preferred now).1.confidence =
      resp.confidence := by
  unfold processMessage
  cases hp : processPipeline A message preferred with
  | mk rd r =>
    rw [hp] at hok
    dsimp only at hok
    subst hok
    exact ⟨rfl, rfl, rfl, rfl⟩

/-- Concrete agents for the C3 witness: every agent scores 1 and answers with
a fixed response. -/
def c3Agents : String → Agent := fun name =>
  { canHandle := fun _ => some 1,
    processMessage := fun _ => Except.ok (stubResponse "hello answer" name) }

/-- A concrete coordinator state for the C3 witness. -/
def c3State : CoordinatorState :=
  { session_id := "sess-1",
    conversation_context := initContext "coordinator" none 0,
    storage := emptyStorage }

/-- Witness for C3: with an explicitly preferred "research" agent and a store
that raises on every write, `process()` still returns the pipeline's
response, identical to the one a perfect store yields. -/
theorem process_survives_store_failure_witness :
    (processMessage c3Agents (fun _ _ => Except.error "disk full") c3State
      "hello" (some "research") 7).1 =
      (processMessage c3Agents
        (fun st e => Except.ok (storeConversation ⟨false, false, false⟩ st e 7))
        c3State "hello" (some "research") 7).1 ∧
    (processMessage c3Agents (fun _ _ => Except.error "disk full") c3State
      "hello" (some "research") 7).1.content =
      (stubResponse "hello answer" "research").content ∧
    (processMessage c3Agents (fun _ _ => Except.error "disk full") c3State
      "hello" (some "research") 7).1.agent_used =
      (stubResponse "hello answer" "research").agent_name ∧
    (processMessage c3Agents (fun _ _ => Except.error "disk full") c3State
      "hello" (some "research") 7).1.confidence =
      (stubResponse "hello answer" "research").confidence :=
  process_survives_store_failure c3Agents
    (fun st e => Except.ok (storeConversation ⟨false, false, false⟩ st e 7))
    (fun _ _ => Except.error "disk full") c3State "hello" (some "research") 7
    (stubResponse "hello answer" "research") rfl

end AiAgent
